import Mathlib

/-!
Shallow embedding of the IPAM core of the repository
(`src/api/network/app/utils/ipam.py`, class `IPAddressManager`).

The five repository functions delegate all address handling to Python's
standard `ipaddress` module, so the embedding also models the parts of
that module the functions reach (`ip_network`, `ip_address`, `hosts`,
`subnets`, `subnet_of`, the derived network attributes and the textual
forms), translated from CPython's `Lib/ipaddress.py`.

Machine integers are `Nat`; Python exceptions are an explicit error type
(`PyErr`), with `AddressValueError` and `NetmaskValueError` both counting
as `ValueError` (they are subclasses), while `TypeError` is not.
Exception messages are carried but only approximately (no theorem depends
on the text of a message beyond stated literal fragments).
-/

/-- IP version tag (`_version` in `ipaddress`). -/
inductive IpVersion where
  | v4
  | v6
deriving DecidableEq

/-- `_max_prefixlen`: 32 for IPv4, 128 for IPv6. -/
def IpVersion.maxPrefixlen : IpVersion → Nat
  | .v4 => 32
  | .v6 => 128

/-- `_ALL_ONES`: the all-ones address value of the version. -/
def IpVersion.allOnes (v : IpVersion) : Nat := 2 ^ v.maxPrefixlen - 1

/-- A parsed single address (`IPv4Address` / `IPv6Address`): numeric value,
plus the scope id for IPv6 (`_scope_id`; `None` for IPv4).  Python equality
on address objects compares version, numeric value, and (for IPv6) scope. -/
inductive IPAddr where
  | v4 (value : Nat)
  | v6 (value : Nat) (scopeId : Option String)
deriving DecidableEq

/-- The numeric value of the address (`_ip`). -/
def IPAddr.value : IPAddr → Nat
  | .v4 v => v
  | .v6 v _ => v

/-- Python `x <= y` on address objects: `functools.total_ordering` derives
`__le__` as `(x < y) or (x == y)`, where `_BaseAddress.__lt__` compares
only the numeric values (returning false at ties) and `__eq__` is the
full address equality, scope id included for IPv6. -/
def IPAddr.pyLe (x y : IPAddr) : Bool :=
  decide (x.value < y.value) || decide (x = y)

/-- The Python exceptions the IPAM code can meet.  `AddressValueError` and
`NetmaskValueError` are subclasses of `ValueError`; `TypeError` is not. -/
inductive PyErr where
  | addressValueError (msg : String)
  | netmaskValueError (msg : String)
  | valueError (msg : String)
  | typeError (msg : String)
deriving DecidableEq

/-- Whether an `except ValueError:` clause catches the exception. -/
def PyErr.isValueError : PyErr → Bool
  | .addressValueError _ => true
  | .netmaskValueError _ => true
  | .valueError _ => true
  | .typeError _ => false

/-- Whether `except (AddressValueError, NetmaskValueError):` catches it
(the clause used inside `ip_network` / `ip_address`). -/
def PyErr.isAddressOrNetmaskError : PyErr → Bool
  | .addressValueError _ => true
  | .netmaskValueError _ => true
  | _ => false

/-- The message carried by the exception. -/
def PyErr.msg : PyErr → String
  | .addressValueError m => m
  | .netmaskValueError m => m
  | .valueError m => m
  | .typeError m => m

/-- Python `str.split(sep)` for a single-character separator: split at
every occurrence, keeping empty pieces (structural, so that concrete
inputs evaluate inside the kernel). -/
def pySplitGo (sep : Char) : List Char → List Char → List (List Char)
  | [], acc => [acc.reverse]
  | c :: rest, acc =>
    if c = sep then acc.reverse :: pySplitGo sep rest []
    else pySplitGo sep rest (c :: acc)

def pySplit (sep : Char) (s : String) : List String :=
  (pySplitGo sep s.toList []).map (fun l => String.mk l)

/-! ### IPv4 textual parsing (`_BaseV4`) -/

/-- Decimal digit fold (`int(s, 10)` on an all-digit string). -/
def decDigitsToNat (l : List Char) : Nat :=
  l.foldl (fun a c => a * 10 + (c.toNat - '0'.toNat)) 0

/-- `_BaseV4._parse_octet`: nonempty, ASCII digits only, at most 3 chars,
no leading zero (glibc-strict, bpo-36384), value at most 255. -/
def parseOctet (s : String) : Option Nat :=
  if s.isEmpty then none
  else if ¬ s.toList.all Char.isDigit then none
  else if s.length > 3 then none
  else if s ≠ "0" ∧ s.toList.head? = some '0' then none
  else
    let v := decDigitsToNat s.toList
    if v > 255 then none else some v

/-- `_BaseV4._ip_int_from_string`: exactly 4 octets joined by dots,
folded big-endian. -/
def ipv4IntFromString (s : String) : Option Nat :=
  if s.isEmpty then none
  else
    let octets := pySplit '.' s
    if octets.length ≠ 4 then none
    else
      match octets.mapM parseOctet with
      | some vals => some (vals.foldl (fun a v => a * 256 + v) 0)
      | none => none

/-- `IPv4Address.__init__` on a string: rejects a slash, then parses. -/
def ipv4AddressFromString (s : String) : Except PyErr Nat :=
  if s.toList.contains '/' then
    .error (.addressValueError ("Unexpected slash in " ++ s))
  else
    match ipv4IntFromString s with
    | some v => .ok v
    | none => .error (.addressValueError (s ++ " is not a valid IPv4 address"))

/-- `_BaseV4._string_from_ip_int`: dotted decimal of the 4 big-endian bytes. -/
def v4StringFromInt (v : Nat) : String :=
  String.intercalate "."
    ([v / 16777216 % 256, v / 65536 % 256, v / 256 % 256, v % 256].map Nat.repr)

/-! ### IPv6 textual parsing (`_BaseV6`) -/

/-- Value of a hex digit, `none` outside `_HEX_DIGITS`. -/
def hexVal (c : Char) : Option Nat :=
  if c.isDigit then some (c.toNat - '0'.toNat)
  else if 'a' ≤ c ∧ c ≤ 'f' then some (c.toNat - 'a'.toNat + 10)
  else if 'A' ≤ c ∧ c ≤ 'F' then some (c.toNat - 'A'.toNat + 10)
  else none

/-- `_BaseV6._parse_hextet`: hex digits only, 1 to 4 of them
(the empty string fails at `int('', 16)` in the source). -/
def parseHextet (s : String) : Option Nat :=
  if ¬ s.toList.all (fun c => (hexVal c).isSome) then none
  else if s.length > 4 then none
  else if s.isEmpty then none
  else some (s.toList.foldl (fun a c => a * 16 + (hexVal c).getD 0) 0)

/-- Locate the unique interior `::` skip position among the middle parts
(`skip_index` search).  `none` means two skips were found (an error);
`some none` means no skip; `some (some i)` is the index of the skip,
counting from `base`. -/
def findSkipIndex : List String → Nat → Option (Option Nat)
  | [], _ => some none
  | p :: rest, base =>
    if p.isEmpty then
      match findSkipIndex rest (base + 1) with
      | some none => some (some base)
      | _ => none
    else findSkipIndex rest (base + 1)

/-- Big-endian 16-bit fold of parsed hextets onto an accumulator. -/
def foldHextets (acc : Nat) (vals : List Nat) : Nat :=
  vals.foldl (fun a v => a * 65536 + v) acc

/-- `_BaseV6._ip_int_from_string`: at least 3 colon-separated parts, an
optional trailing embedded IPv4 part (converted to two hex parts), at most
9 parts, at most one interior `::`, endpoint colon rules, then the hextet
folds around the skipped zero run. -/
def ipv6IntFromString (s : String) : Option Nat :=
  if s.isEmpty then none
  else
    let parts := pySplit ':' s
    if parts.length < 3 then none
    else
      let partsConv :=
        match parts.getLast? with
        | some last =>
          if last.toList.contains '.' then
            match ipv4IntFromString last with
            | some ipv4Int =>
              some (parts.dropLast ++
                [String.mk (Nat.toDigits 16 ((ipv4Int >>> 16) &&& 65535)),
                 String.mk (Nat.toDigits 16 (ipv4Int &&& 65535))])
            | none => none
          else some parts
        | none => none
      match partsConv with
      | none => none
      | some parts =>
        if parts.length > 9 then none
        else
          match findSkipIndex (parts.drop 1 |>.dropLast) 1 with
          | none => none
          | some (some skipIndex) =>
            let hi0 := skipIndex
            let lo0 := parts.length - skipIndex - 1
            let headEmpty := (parts.head?.getD "_").isEmpty
            let lastEmpty := (parts.getLast?.getD "_").isEmpty
            let hi := if headEmpty then hi0 - 1 else hi0
            let lo := if lastEmpty then lo0 - 1 else lo0
            if headEmpty ∧ hi ≠ 0 then none
            else if lastEmpty ∧ lo ≠ 0 then none
            else if hi + lo + 1 > 8 then none
            else
              let skipped := 8 - (hi + lo)
              match (parts.take hi).mapM parseHextet,
                    (parts.drop (parts.length - lo)).mapM parseHextet with
              | some his, some los =>
                some (foldHextets ((foldHextets 0 his) <<< (16 * skipped)) los)
              | _, _ => none
          | some none =>
            if parts.length ≠ 8 then none
            else if (parts.head?.getD "_").isEmpty then none
            else if (parts.getLast?.getD "_").isEmpty then none
            else
              match parts.mapM parseHextet with
              | some vals => some (foldHextets 0 vals)
              | none => none

/-- `IPv6Address._split_scope_id`: split at the first percent sign; the
scope must be nonempty and contain no further percent sign. -/
def splitScopeId (s : String) : Option (String × Option String) :=
  match pySplit '%' s with
  | [a] => some (a, none)
  | [a, sc] => if sc.isEmpty then none else some (a, some sc)
  | _ => none

/-- `IPv6Address.__init__` on a string: rejects a slash, splits the scope
id, then parses the numeric part. -/
def ipv6AddressFromString (s : String) : Except PyErr (Nat × Option String) :=
  if s.toList.contains '/' then
    .error (.addressValueError ("Unexpected slash in " ++ s))
  else
    match splitScopeId s with
    | none => .error (.addressValueError ("Invalid IPv6 address: " ++ s))
    | some (addr, scope) =>
      match ipv6IntFromString addr with
      | some v => .ok (v, scope)
      | none => .error (.addressValueError (s ++ " is not a valid IPv6 address"))

/-- `ip_address` on a string: try IPv4, then IPv6 (both kinds of parse
error are caught), else a generic `ValueError`. -/
def ip_address (s : String) : Except PyErr IPAddr :=
  match ipv4AddressFromString s with
  | .ok v => .ok (.v4 v)
  | .error _ =>
    match ipv6AddressFromString s with
    | .ok (v, sc) => .ok (.v6 v sc)
    | .error _ =>
      .error (.valueError (s ++ " does not appear to be an IPv4 or IPv6 address"))

/-- `_BaseV6._string_from_ip_int` before compression: the 8 hextets of the
value, each in minimal lowercase hex. -/
def v6HextetsFromInt (v : Nat) : List String :=
  (List.range 8).map (fun i => String.mk (Nat.toDigits 16 ((v >>> (16 * (7 - i))) &&& 65535)))

/-- The scan of `_compress_hextets`: first longest run of `"0"` entries,
as (start index as `Int`, run length); `(-1, 0)` when there is none. -/
def bestZeroRun (hextets : List String) : Int × Nat :=
  let step := fun (st : Int × Nat × Int × Nat) (ih : Nat × String) =>
    let (bestStart, bestLen, curStart, curLen) := st
    let (index, hextet) := ih
    if hextet = "0" then
      let curLen := curLen + 1
      let curStart := if curStart = -1 then (index : Int) else curStart
      if curLen > bestLen then (curStart, curLen, curStart, curLen)
      else (bestStart, bestLen, curStart, curLen)
    else (bestStart, bestLen, -1, 0)
  let (bestStart, bestLen, _, _) := hextets.enum.foldl step (-1, 0, -1, 0)
  (bestStart, bestLen)

/-- `_BaseV6._compress_hextets`: replace the first longest run (length
at least 2) of zero hextets with the empty string, padding an edge run so
that joining with colons yields the `::` form. -/
def compressHextets (hextets : List String) : List String :=
  let (bestStartI, bestLen) := bestZeroRun hextets
  if bestLen > 1 then
    let bestStart := bestStartI.toNat
    let bestEnd := bestStart + bestLen
    let hs := if bestEnd = hextets.length then hextets ++ [""] else hextets
    let hs := hs.take bestStart ++ [""] ++ hs.drop bestEnd
    if bestStart = 0 then "" :: hs else hs
  else hextets

/-- `_BaseV6._string_from_ip_int`: compressed colon-hex form. -/
def v6StringFromInt (v : Nat) : String :=
  String.intercalate ":" (compressHextets (v6HextetsFromInt v))

/-- `str` of an address object (IPv6 appends `%scope` when scoped). -/
def IPAddr.str : IPAddr → String
  | .v4 v => v4StringFromInt v
  | .v6 v none => v6StringFromInt v
  | .v6 v (some sc) => v6StringFromInt v ++ "%" ++ sc

/-! ### Netmask parsing and strict network construction -/

/-- `_prefix_from_prefix_string`: nonempty ASCII-digit string whose value
is within `[0, maxLen]`. -/
def prefixLenFromString (maxLen : Nat) (s : String) : Option Nat :=
  if s.isEmpty then none
  else if ¬ s.toList.all Char.isDigit then none
  else
    let p := decDigitsToNat s.toList
    if p ≤ maxLen then some p else none

/-- Fuelled count of trailing zero bits of a positive number. -/
def trailingZeroBits : Nat → Nat → Nat
  | 0, _ => 0
  | fuel + 1, n => if n % 2 = 1 then 0 else 1 + trailingZeroBits fuel (n / 2)

/-- `_count_righthand_zero_bits`. -/
def countRighthandZeroBits (number bits : Nat) : Nat :=
  if number = 0 then bits else min bits (trailingZeroBits bits number)

/-- `_prefix_from_ip_int`: prefix length of an all-ones-then-all-zeros
netmask value, `none` when ones and zeros are intermingled. -/
def prefixLenFromIpInt (maxLen ipInt : Nat) : Option Nat :=
  let tz := countRighthandZeroBits ipInt maxLen
  let p := maxLen - tz
  if ipInt >>> tz = 2 ^ p - 1 then some p else none

/-- `_BaseV4._prefix_from_ip_string`: parse as a dotted quad, try it as a
netmask, then inverted as a hostmask. -/
def prefixLenFromV4IpString (s : String) : Option Nat :=
  match ipv4IntFromString s with
  | none => none
  | some ipInt =>
    match prefixLenFromIpInt 32 ipInt with
    | some p => some p
    | none => prefixLenFromIpInt 32 (ipInt ^^^ (2 ^ 32 - 1))

/-- `_BaseV4._make_netmask` on the mask component (`none` = no slash, the
default prefix 32): digit-prefix form, else netmask/hostmask dotted form. -/
def makeNetmaskV4 : Option String → Except PyErr Nat
  | none => .ok 32
  | some s =>
    match prefixLenFromString 32 s with
    | some p => .ok p
    | none =>
      match prefixLenFromV4IpString s with
      | some p => .ok p
      | none => .error (.netmaskValueError (s ++ " is not a valid netmask"))

/-- `_BaseV6._make_netmask`: only the digit-prefix form (default 128). -/
def makeNetmaskV6 : Option String → Except PyErr Nat
  | none => .ok 128
  | some s =>
    match prefixLenFromString 128 s with
    | some p => .ok p
    | none => .error (.netmaskValueError (s ++ " is not a valid netmask"))

/-- A parsed network (`IPv4Network` / `IPv6Network`): version, numeric
network address, prefix length, and the scope id carried by the IPv6
network address (always `none` for IPv4). -/
structure Network where
  version : IpVersion
  networkAddress : Nat
  prefixlen : Nat
  scopeId : Option String
deriving DecidableEq

def Network.maxPrefixlen (n : Network) : Nat := n.version.maxPrefixlen

def Network.allOnes (n : Network) : Nat := n.version.allOnes

/-- `netmask` as an integer: `ALL_ONES ^ (ALL_ONES >> prefixlen)`. -/
def Network.netmaskInt (n : Network) : Nat := n.allOnes ^^^ (n.allOnes >>> n.prefixlen)

/-- `hostmask` as an integer: `netmask ^ ALL_ONES`. -/
def Network.hostmaskInt (n : Network) : Nat := n.netmaskInt ^^^ n.allOnes

/-- `broadcast_address` as an integer: `network | hostmask`. -/
def Network.broadcastInt (n : Network) : Nat := n.networkAddress ||| n.hostmaskInt

/-- `num_addresses`: `broadcast - network + 1`. -/
def Network.numAddresses (n : Network) : Nat := n.broadcastInt - n.networkAddress + 1

/-- The network address as an address object (scope preserved). -/
def Network.addrObj (n : Network) : IPAddr :=
  match n.version with
  | .v4 => .v4 n.networkAddress
  | .v6 => .v6 n.networkAddress n.scopeId

/-- An address value of the network's family as an unscoped address object
(`self._address_class(x)` on an integer). -/
def Network.hostAddr (n : Network) (x : Nat) : IPAddr :=
  match n.version with
  | .v4 => .v4 x
  | .v6 => .v6 x none

/-- `str(network)`: address (with scope) slash prefix length. -/
def Network.str (n : Network) : String := n.addrObj.str ++ "/" ++ Nat.repr n.prefixlen

/-- `IPv4Network.__init__` (strict) after the address/mask split. -/
def ipv4NetworkFromParts (a : String) (m : Option String) : Except PyErr Network :=
  match ipv4AddressFromString a with
  | .error e => .error e
  | .ok packed =>
    match makeNetmaskV4 m with
    | .error e => .error e
    | .ok p =>
      let netmask := IpVersion.v4.allOnes ^^^ (IpVersion.v4.allOnes >>> p)
      if packed &&& netmask ≠ packed then
        .error (.valueError (v4StringFromInt packed ++ "/" ++ Nat.repr p ++ " has host bits set"))
      else .ok ⟨.v4, packed, p, none⟩

/-- `IPv6Network.__init__` (strict) after the address/mask split. -/
def ipv6NetworkFromParts (a : String) (m : Option String) : Except PyErr Network :=
  match ipv6AddressFromString a with
  | .error e => .error e
  | .ok (packed, scope) =>
    match makeNetmaskV6 m with
    | .error e => .error e
    | .ok p =>
      let netmask := IpVersion.v6.allOnes ^^^ (IpVersion.v6.allOnes >>> p)
      if packed &&& netmask ≠ packed then
        .error (.valueError (IPAddr.str (.v6 packed scope) ++ "/" ++ Nat.repr p ++ " has host bits set"))
      else .ok ⟨.v6, packed, p, scope⟩

/-- `_split_optional_netmask` followed by the constructor: at most one
slash (`[a]` means no mask given). -/
def networkFromString (ctor : String → Option String → Except PyErr Network)
    (address : String) : Except PyErr Network :=
  match pySplit '/' address with
  | [a] => ctor a none
  | [a, m] => ctor a (some m)
  | _ => .error (.addressValueError ("Only one slash permitted in " ++ address))

/-- `ip_network(address, strict=True)` on a string: try `IPv4Network`,
then `IPv6Network`, catching only `AddressValueError`/`NetmaskValueError`
in between (the strict host-bits `ValueError` propagates as is). -/
def ip_network (address : String) : Except PyErr Network :=
  match networkFromString ipv4NetworkFromParts address with
  | .ok n => .ok n
  | .error e =>
    if e.isAddressOrNetmaskError then
      match networkFromString ipv6NetworkFromParts address with
      | .ok n => .ok n
      | .error e2 =>
        if e2.isAddressOrNetmaskError then
          .error (.valueError (address ++ " does not appear to be an IPv4 or IPv6 network"))
        else .error e2
    else .error e

/-! ### Network operations reached by the IPAM code -/

/-- `hosts()` as the list of yielded address objects.  `IPv4Network`
yields the two addresses for a /31 and the single block address for a
/32; otherwise the base implementation excludes the network and broadcast
addresses.  `IPv6Network` mirrors this at /127 and /128, and otherwise
excludes only the network (Subnet-Router anycast) address.  Every yielded
address is constructed from its integer value via `_address_class(x)` —
hence unscoped — except the single host of a full-length block, which is
the parsed block address itself and keeps its scope id. -/
def Network.hostsList (n : Network) : List IPAddr :=
  match n.version with
  | .v4 =>
    if n.prefixlen = 31 then
      (List.range' n.networkAddress (n.broadcastInt + 1 - n.networkAddress)).map IPAddr.v4
    else if n.prefixlen = 32 then [n.addrObj]
    else
      (List.range' (n.networkAddress + 1)
        (n.broadcastInt - (n.networkAddress + 1))).map IPAddr.v4
  | .v6 =>
    if n.prefixlen = 127 then
      (List.range' n.networkAddress (n.broadcastInt + 1 - n.networkAddress)).map
        (fun x => IPAddr.v6 x none)
    else if n.prefixlen = 128 then [n.addrObj]
    else
      (List.range' (n.networkAddress + 1)
        (n.broadcastInt + 1 - (n.networkAddress + 1))).map (fun x => IPAddr.v6 x none)

/-- Python `range(start, stop, step)` for a positive step. -/
def rangeStepList (start stop step : Nat) : List Nat :=
  (List.range ((stop - start + step - 1) / step)).map (fun k => start + k * step)

/-- `subnets(new_prefix=newPrefixLen)`: a full-length network yields just
itself; otherwise the requested length must not be shorter than the
current one nor exceed the family maximum, and the subnets step through
the block.  (The strict re-check inside the element constructor never
fires: every generated address is step-aligned.) -/
def Network.subnetsList (n : Network) (newPrefixLen : Int) : Except PyErr (List Network) :=
  if n.prefixlen = n.maxPrefixlen then .ok [n]
  else if newPrefixLen < (n.prefixlen : Int) then
    .error (.valueError "new prefix must be longer")
  else
    let prefixlenDiff := (newPrefixLen - (n.prefixlen : Int)).toNat
    let newLen := n.prefixlen + prefixlenDiff
    if n.maxPrefixlen < newLen then
      .error (.valueError ("prefix length diff " ++ Nat.repr newLen ++
        " is invalid for netblock " ++ n.str))
    else
      let step := (n.hostmaskInt + 1) >>> prefixlenDiff
      .ok ((rangeStepList n.networkAddress (n.broadcastInt + 1) step).map
        (fun a => ⟨n.version, a, newLen, none⟩))

/-- `_BaseNetwork._is_subnet_of(a, b)`: a `TypeError` (not caught by the
callers' `except ValueError`) on a version mismatch, else
`b.network_address <= a.network_address and
b.broadcast_address >= a.broadcast_address`.  The `<=` on the possibly
scoped network addresses is `total_ordering`'s lt-or-eq with scope-aware
equality (`IPAddr.pyLe`); the `>=` on the broadcast addresses is
`total_ordering`'s not-lt, i.e. the plain numeric comparison (broadcast
addresses are integer-constructed and unscoped). -/
def isSubnetOfImpl (a b : Network) : Except PyErr Bool :=
  if a.version ≠ b.version then
    .error (.typeError (a.str ++ " and " ++ b.str ++ " are not of the same version"))
  else
    .ok (b.addrObj.pyLe a.addrObj && decide (a.broadcastInt ≤ b.broadcastInt))

/-! ### The five `IPAddressManager` methods (`ipam.py`) -/

/-- `validate_cidr`: `ip_network(cidr)` under `try/except ValueError`
(every parse failure is a `ValueError`, so no exception escapes). -/
def validate_cidr (cidr : String) : Bool :=
  match ip_network cidr with
  | .ok _ => true
  | .error _ => false

/-- `is_subnet_of(parent_cidr, subnet_cidr)`: parse both inside
`try/except ValueError` and defer to `subnet_net.subnet_of(parent_net)`;
the `TypeError` raised on an IPv4/IPv6 mismatch is not caught. -/
def is_subnet_of (parent_cidr subnet_cidr : String) : Except PyErr Bool :=
  match ip_network parent_cidr with
  | .error e => if e.isValueError then .ok false else .error e
  | .ok parentNet =>
    match ip_network subnet_cidr with
    | .error e => if e.isValueError then .ok false else .error e
    | .ok subnetNet => isSubnetOfImpl subnetNet parentNet

/-- Python `xs[:count]` for an arbitrary integer bound. -/
def pySliceTo {α : Type} (xs : List α) (count : Int) : List α :=
  if count < 0 then xs.take (xs.length - count.natAbs) else xs.take count.toNat

/-- `generate_subnets(parent_cidr, new_prefix, count)`: parse, subdivide,
slice, stringify; any `ValueError` is re-raised with the
`Error generating subnets: ` message prefix. -/
def generate_subnets (parent_cidr : String) (newPrefixLen : Int) (count : Int) :
    Except PyErr (List String) :=
  match (do
      let parentNet ← ip_network parent_cidr
      let subs ← parentNet.subnetsList newPrefixLen
      pure ((pySliceTo subs count).map Network.str) :
      Except PyErr (List String)) with
  | .ok l => .ok l
  | .error e =>
    if e.isValueError then .error (.valueError ("Error generating subnets: " ++ e.msg))
    else .error e

/-- `get_available_ip(subnet_cidr, used_ips)`: parse the block, parse every
used entry into the used set, and return the first host not in the set;
any `ValueError` yields `None`. -/
def get_available_ip (subnet_cidr : String) (used_ips : List String) : Option String :=
  match (do
      let subnet ← ip_network subnet_cidr
      let used ← used_ips.mapM ip_address
      pure ((subnet.hostsList.find? (fun h => decide (h ∉ used))).map IPAddr.str) :
      Except PyErr (Option String)) with
  | .ok r => r
  | .error _ => none

/-- The dict returned by `calculate_network_info`, field per key. -/
structure NetworkInfo where
  network_address : String
  broadcast_address : String
  netmask : String
  hostmask : String
  prefixlen : Nat
  num_addresses : Nat
  usable_hosts : Int
  first_usable : Option String
  last_usable : Option String
deriving DecidableEq

/-- `calculate_network_info(cidr)`: the derived attributes for a valid
block, `none` (the empty dict) on any `ValueError`.  `usable_hosts` is
`num_addresses - 2` for every IPv4 network and `num_addresses` otherwise;
first/last usable are the endpoints of `hosts()` when that list is
nonempty. -/
def calculate_network_info (cidr : String) : Option NetworkInfo :=
  match ip_network cidr with
  | .error _ => none
  | .ok network =>
    some ⟨network.addrObj.str,
      (network.hostAddr network.broadcastInt).str,
      (network.hostAddr network.netmaskInt).str,
      (network.hostAddr network.hostmaskInt).str,
      network.prefixlen,
      network.numAddresses,
      (if network.version = .v4 then (network.numAddresses : Int) - 2
       else (network.numAddresses : Int)),
      (network.hostsList.head?).map IPAddr.str,
      (network.hostsList.getLast?).map IPAddr.str⟩

/-! ### Invariants established by strict parsing -/

/-- What the strict constructors guarantee: an in-range prefix length and
a network address whose host bits are all zero. -/
def Network.Valid (n : Network) : Prop :=
  n.prefixlen ≤ n.maxPrefixlen ∧ n.networkAddress &&& n.netmaskInt = n.networkAddress

theorem prefixLenFromString_le {maxLen : Nat} {s : String} {p : Nat}
    (h : prefixLenFromString maxLen s = some p) : p ≤ maxLen := by
  simp only [prefixLenFromString] at h
  split at h
  · exact absurd h (by simp)
  · split at h
    · exact absurd h (by simp)
    · split at h
      · cases h; assumption
      · exact absurd h (by simp)

theorem prefixLenFromIpInt_le {maxLen ipInt p : Nat}
    (h : prefixLenFromIpInt maxLen ipInt = some p) : p ≤ maxLen := by
  simp only [prefixLenFromIpInt] at h
  split at h
  · cases h; exact Nat.sub_le _ _
  · exact absurd h (by simp)

theorem prefixLenFromV4IpString_le {s : String} {p : Nat}
    (h : prefixLenFromV4IpString s = some p) : p ≤ 32 := by
  simp only [prefixLenFromV4IpString] at h
  cases h1 : ipv4IntFromString s with
  | none => rw [h1] at h; exact absurd h (by simp)
  | some ipInt =>
    rw [h1] at h
    simp only at h
    cases h2 : prefixLenFromIpInt 32 ipInt with
    | some q => rw [h2] at h; cases h; exact prefixLenFromIpInt_le h2
    | none => rw [h2] at h; simp only at h; exact prefixLenFromIpInt_le h

theorem makeNetmaskV4_le {m : Option String} {p : Nat}
    (h : makeNetmaskV4 m = .ok p) : p ≤ 32 := by
  cases m with
  | none => simp only [makeNetmaskV4] at h; cases h; exact Nat.le_refl 32
  | some s =>
    simp only [makeNetmaskV4] at h
    cases h1 : prefixLenFromString 32 s with
    | some q => rw [h1] at h; cases h; exact prefixLenFromString_le h1
    | none =>
      rw [h1] at h
      cases h2 : prefixLenFromV4IpString s with
      | some q => rw [h2] at h; cases h; exact prefixLenFromV4IpString_le h2
      | none => rw [h2] at h; exact absurd h (by simp)

theorem makeNetmaskV6_le {m : Option String} {p : Nat}
    (h : makeNetmaskV6 m = .ok p) : p ≤ 128 := by
  cases m with
  | none => simp only [makeNetmaskV6] at h; cases h; exact Nat.le_refl 128
  | some s =>
    simp only [makeNetmaskV6] at h
    cases h1 : prefixLenFromString 128 s with
    | some q => rw [h1] at h; cases h; exact prefixLenFromString_le h1
    | none => rw [h1] at h; exact absurd h (by simp)

theorem ipv4NetworkFromParts_ok {a : String} {m : Option String} {n : Network}
    (h : ipv4NetworkFromParts a m = .ok n) : n.version = .v4 ∧ n.Valid := by
  simp only [ipv4NetworkFromParts] at h
  cases ha : ipv4AddressFromString a with
  | error e => rw [ha] at h; exact absurd h (by simp)
  | ok packed =>
    rw [ha] at h
    cases hm : makeNetmaskV4 m with
    | error e => rw [hm] at h; exact absurd h (by simp)
    | ok p =>
      rw [hm] at h
      simp only at h
      split at h
      · exact absurd h (by simp)
      · rename_i hcond
        cases h
        refine ⟨rfl, makeNetmaskV4_le hm, ?_⟩
        simpa using Decidable.not_not.mp hcond

theorem ipv6NetworkFromParts_ok {a : String} {m : Option String} {n : Network}
    (h : ipv6NetworkFromParts a m = .ok n) : n.version = .v6 ∧ n.Valid := by
  simp only [ipv6NetworkFromParts] at h
  cases ha : ipv6AddressFromString a with
  | error e => rw [ha] at h; exact absurd h (by simp)
  | ok pr =>
    rw [ha] at h
    cases hm : makeNetmaskV6 m with
    | error e => rw [hm] at h; exact absurd h (by simp)
    | ok p =>
      rw [hm] at h
      simp only at h
      split at h
      · exact absurd h (by simp)
      · rename_i hcond
        cases h
        refine ⟨rfl, makeNetmaskV6_le hm, ?_⟩
        simpa using Decidable.not_not.mp hcond

theorem networkFromString_ok {ctor : String → Option String → Except PyErr Network}
    {address : String} {n : Network} (h : networkFromString ctor address = .ok n) :
    ∃ a m, ctor a m = .ok n := by
  simp only [networkFromString] at h
  split at h
  · exact ⟨_, _, h⟩
  · exact ⟨_, _, h⟩
  · exact absurd h (by simp)

theorem ip_network_ok_valid {s : String} {n : Network}
    (h : ip_network s = .ok n) : n.Valid := by
  simp only [ip_network] at h
  cases h4 : networkFromString ipv4NetworkFromParts s with
  | ok n4 =>
    rw [h4] at h
    cases h
    obtain ⟨a, m, hc⟩ := networkFromString_ok h4
    exact (ipv4NetworkFromParts_ok hc).2
  | error e =>
    rw [h4] at h
    simp only at h
    split at h
    · cases h6 : networkFromString ipv6NetworkFromParts s with
      | ok n6 =>
        rw [h6] at h
        cases h
        obtain ⟨a, m, hc⟩ := networkFromString_ok h6
        exact (ipv6NetworkFromParts_ok hc).2
      | error e2 =>
        rw [h6] at h
        simp only at h
        split at h <;> exact absurd h (by simp)
    · exact absurd h (by simp)

theorem ipv4AddressFromString_error {s : String} {e : PyErr}
    (h : ipv4AddressFromString s = .error e) : e.isValueError = true := by
  simp only [ipv4AddressFromString] at h
  split at h
  · cases h; rfl
  · cases h1 : ipv4IntFromString s with
    | some v => rw [h1] at h; exact absurd h (by simp)
    | none => rw [h1] at h; cases h; rfl

theorem ipv6AddressFromString_error {s : String} {e : PyErr}
    (h : ipv6AddressFromString s = .error e) : e.isValueError = true := by
  simp only [ipv6AddressFromString] at h
  split at h
  · cases h; rfl
  · cases h1 : splitScopeId s with
    | none => rw [h1] at h; cases h; rfl
    | some pr =>
      rw [h1] at h
      simp only at h
      cases h2 : ipv6IntFromString pr.1 with
      | some v => rw [h2] at h; exact absurd h (by simp)
      | none => rw [h2] at h; cases h; rfl

theorem makeNetmaskV4_error {m : Option String} {e : PyErr}
    (h : makeNetmaskV4 m = .error e) : e.isValueError = true := by
  cases m with
  | none => exact absurd h (by simp [makeNetmaskV4])
  | some s =>
    simp only [makeNetmaskV4] at h
    cases h1 : prefixLenFromString 32 s with
    | some q => rw [h1] at h; exact absurd h (by simp)
    | none =>
      rw [h1] at h
      cases h2 : prefixLenFromV4IpString s with
      | some q => rw [h2] at h; exact absurd h (by simp)
      | none => rw [h2] at h; cases h; rfl

theorem makeNetmaskV6_error {m : Option String} {e : PyErr}
    (h : makeNetmaskV6 m = .error e) : e.isValueError = true := by
  cases m with
  | none => exact absurd h (by simp [makeNetmaskV6])
  | some s =>
    simp only [makeNetmaskV6] at h
    cases h1 : prefixLenFromString 128 s with
    | some q => rw [h1] at h; exact absurd h (by simp)
    | none => rw [h1] at h; cases h; rfl

theorem ipv4NetworkFromParts_error {a : String} {m : Option String} {e : PyErr}
    (h : ipv4NetworkFromParts a m = .error e) : e.isValueError = true := by
  simp only [ipv4NetworkFromParts] at h
  cases ha : ipv4AddressFromString a with
  | error e1 => rw [ha] at h; cases h; exact ipv4AddressFromString_error ha
  | ok packed =>
    rw [ha] at h
    cases hm : makeNetmaskV4 m with
    | error e1 => rw [hm] at h; cases h; exact makeNetmaskV4_error hm
    | ok p =>
      rw [hm] at h
      simp only at h
      split at h
      · cases h; rfl
      · exact absurd h (by simp)

theorem ipv6NetworkFromParts_error {a : String} {m : Option String} {e : PyErr}
    (h : ipv6NetworkFromParts a m = .error e) : e.isValueError = true := by
  simp only [ipv6NetworkFromParts] at h
  cases ha : ipv6AddressFromString a with
  | error e1 => rw [ha] at h; cases h; exact ipv6AddressFromString_error ha
  | ok pr =>
    rw [ha] at h
    cases hm : makeNetmaskV6 m with
    | error e1 => rw [hm] at h; cases h; exact makeNetmaskV6_error hm
    | ok p =>
      rw [hm] at h
      simp only at h
      split at h
      · cases h; rfl
      · exact absurd h (by simp)

theorem networkFromString_error {ctor : String → Option String → Except PyErr Network}
    {address : String} {e : PyErr}
    (hc : ∀ a m e1, ctor a m = .error e1 → e1.isValueError = true)
    (h : networkFromString ctor address = .error e) : e.isValueError = true := by
  simp only [networkFromString] at h
  split at h
  · exact hc _ _ _ h
  · exact hc _ _ _ h
  · cases h; rfl

theorem ip_network_error_isValueError {s : String} {e : PyErr}
    (h : ip_network s = .error e) : e.isValueError = true := by
  simp only [ip_network] at h
  cases h4 : networkFromString ipv4NetworkFromParts s with
  | ok n4 => rw [h4] at h; exact absurd h (by simp)
  | error e1 =>
    rw [h4] at h
    simp only at h
    split at h
    · cases h6 : networkFromString ipv6NetworkFromParts s with
      | ok n6 => rw [h6] at h; exact absurd h (by simp)
      | error e2 =>
        rw [h6] at h
        simp only at h
        split at h
        · cases h; rfl
        · cases h
          exact networkFromString_error (fun a m e1 => ipv6NetworkFromParts_error) h6
    · cases h
      exact networkFromString_error (fun a m e1 => ipv4NetworkFromParts_error) h4

/-! ### Mask arithmetic for valid networks -/

theorem allOnes_shiftRight {B p : Nat} (hp : p ≤ B) :
    (2 ^ B - 1) >>> p = 2 ^ (B - p) - 1 := by
  apply Nat.eq_of_testBit_eq
  intro i
  simp only [Nat.testBit_shiftRight, Nat.testBit_two_pow_sub_one, decide_eq_decide]
  omega

theorem hostmaskInt_eq_shiftRight (n : Network) :
    n.hostmaskInt = n.allOnes >>> n.prefixlen := by
  show (n.allOnes ^^^ (n.allOnes >>> n.prefixlen)) ^^^ n.allOnes = _
  rw [Nat.xor_comm (n.allOnes ^^^ (n.allOnes >>> n.prefixlen)) n.allOnes,
    ← Nat.xor_assoc, Nat.xor_self, Nat.zero_xor]

theorem hostmaskInt_eq (n : Network) (hp : n.prefixlen ≤ n.maxPrefixlen) :
    n.hostmaskInt = 2 ^ (n.maxPrefixlen - n.prefixlen) - 1 := by
  rw [hostmaskInt_eq_shiftRight]
  exact allOnes_shiftRight hp

theorem netmaskInt_testBit (n : Network) (i : Nat) :
    n.netmaskInt.testBit i = true ↔
      n.maxPrefixlen - n.prefixlen ≤ i ∧ i < n.maxPrefixlen := by
  show Nat.testBit ((2 ^ n.maxPrefixlen - 1) ^^^ ((2 ^ n.maxPrefixlen - 1) >>> n.prefixlen)) i = true ↔ _
  simp only [Nat.testBit_xor, Nat.testBit_shiftRight, Nat.testBit_two_pow_sub_one]
  rcases Nat.lt_or_ge i n.maxPrefixlen with h1 | h1 <;>
    rcases Nat.lt_or_ge (n.prefixlen + i) n.maxPrefixlen with h2 | h2 <;>
    simp [h1, h2, Nat.not_lt_of_ge, Nat.lt_irrefl] <;> omega

theorem valid_low_testBit {n : Network} (hv : n.Valid) {i : Nat}
    (hi : i < n.maxPrefixlen - n.prefixlen) : n.networkAddress.testBit i = false := by
  have h := congrArg (fun x => Nat.testBit x i) hv.2
  simp only [Nat.testBit_and] at h
  cases hb : n.networkAddress.testBit i with
  | false => rfl
  | true =>
    rw [hb] at h
    simp only [Bool.true_and] at h
    have := (netmaskInt_testBit n i).mp h
    omega

theorem valid_mod_two_pow {n : Network} (hv : n.Valid) :
    n.networkAddress % 2 ^ (n.maxPrefixlen - n.prefixlen) = 0 := by
  apply Nat.eq_of_testBit_eq
  intro i
  simp only [Nat.testBit_mod_two_pow, Nat.zero_testBit]
  by_cases hi : i < n.maxPrefixlen - n.prefixlen
  · simp [hi, valid_low_testBit hv hi]
  · simp [hi]

theorem two_pow_mul_lor {k q r : Nat} (hr : r < 2 ^ k) :
    (2 ^ k * q) ||| r = 2 ^ k * q + r := by
  have hq : 2 ^ k * q = q <<< k := by rw [Nat.shiftLeft_eq, Nat.mul_comm]
  have hhigh : ∀ i, k ≤ i → r.testBit i = false := fun i hi =>
    Nat.testBit_lt_two_pow (Nat.lt_of_lt_of_le hr (Nat.pow_le_pow_right (by decide) hi))
  have hmod : ((2 ^ k * q) ||| r) % 2 ^ k = r := by
    apply Nat.eq_of_testBit_eq
    intro i
    simp only [Nat.testBit_mod_two_pow, Nat.testBit_or, hq, Nat.testBit_shiftLeft]
    by_cases hi : i < k
    · have : ¬ (i ≥ k) := by omega
      simp [hi, this]
    · simp [hi, hhigh i (Nat.le_of_not_lt hi)]
  have hdiv : ((2 ^ k * q) ||| r) / 2 ^ k = q := by
    rw [← Nat.shiftRight_eq_div_pow]
    apply Nat.eq_of_testBit_eq
    intro i
    simp only [Nat.testBit_shiftRight, Nat.testBit_or, hq, Nat.testBit_shiftLeft,
      hhigh (k + i) (Nat.le_add_right k i), Bool.or_false]
    have : k ≤ k + i := Nat.le_add_right k i
    simp [this, Nat.add_sub_cancel_left]
  calc (2 ^ k * q) ||| r
      = 2 ^ k * (((2 ^ k * q) ||| r) / 2 ^ k) + ((2 ^ k * q) ||| r) % 2 ^ k :=
        (Nat.div_add_mod _ _).symm
    _ = 2 ^ k * q + r := by rw [hdiv, hmod]

theorem broadcastInt_eq {n : Network} (hv : n.Valid) :
    n.broadcastInt = n.networkAddress + (2 ^ (n.maxPrefixlen - n.prefixlen) - 1) := by
  have hm := hostmaskInt_eq n hv.1
  show n.networkAddress ||| n.hostmaskInt = _
  rw [hm]
  obtain ⟨q, hq⟩ := Nat.dvd_of_mod_eq_zero (valid_mod_two_pow hv)
  rw [hq]
  exact two_pow_mul_lor (Nat.sub_lt (Nat.two_pow_pos _) (by decide))

theorem numAddresses_eq {n : Network} (hv : n.Valid) :
    n.numAddresses = 2 ^ (n.maxPrefixlen - n.prefixlen) := by
  show n.broadcastInt - n.networkAddress + 1 = _
  rw [broadcastInt_eq hv]
  have h1 : 1 ≤ 2 ^ (n.maxPrefixlen - n.prefixlen) := Nat.one_le_two_pow
  omega

/-! ### The usable-host enumeration -/

/-- The spec-level description (amended wording) of the address values that
`hosts()` enumerates: for IPv4 with prefix length below 31, the addresses
strictly between network and broadcast; for an IPv4 /31 or an IPv6 /127,
the two block addresses (network address included); for a /32 or /128, the
single block address; for IPv6 below /127, every address above the network
address up to the last address. -/
def describedHosts (n : Network) (x : Nat) : Prop :=
  match n.version with
  | .v4 =>
    if n.prefixlen < 31 then n.networkAddress < x ∧ x < n.broadcastInt
    else if n.prefixlen = 31 then x = n.networkAddress ∨ x = n.broadcastInt
    else x = n.networkAddress
  | .v6 =>
    if n.prefixlen < 127 then n.networkAddress < x ∧ x ≤ n.broadcastInt
    else if n.prefixlen = 127 then x = n.networkAddress ∨ x = n.broadcastInt
    else x = n.networkAddress

theorem hostsList_mem {n : Network} (hv : n.Valid) (x : Nat) :
    x ∈ n.hostsList.map IPAddr.value ↔ describedHosts n x := by
  have hb := broadcastInt_eq hv
  have hp := hv.1
  obtain ⟨ver, net, p, sc⟩ := n
  cases ver with
  | v4 =>
    simp only [Network.maxPrefixlen, IpVersion.maxPrefixlen] at hp hb
    by_cases h31 : p = 31
    · subst h31
      have hb1 : Network.broadcastInt ⟨.v4, net, 31, sc⟩ = net + 1 := by simpa using hb
      simp [Network.hostsList, describedHosts, hb1, List.map_map, Function.comp,
        IPAddr.value, List.mem_range'_1]
      omega
    · by_cases h32 : p = 32
      · subst h32
        simp [Network.hostsList, describedHosts, Network.addrObj, IPAddr.value]
      · have hlt : p < 31 := by omega
        have hge : 4 ≤ 2 ^ (32 - p) := by
          calc (4 : Nat) = 2 ^ 2 := rfl
          _ ≤ 2 ^ (32 - p) := Nat.pow_le_pow_right (by decide) (by omega)
        simp [Network.hostsList, describedHosts, hlt, h31, h32, hb, List.map_map,
          Function.comp, IPAddr.value, List.mem_range'_1]
        omega
  | v6 =>
    simp only [Network.maxPrefixlen, IpVersion.maxPrefixlen] at hp hb
    by_cases h127 : p = 127
    · subst h127
      have hb1 : Network.broadcastInt ⟨.v6, net, 127, sc⟩ = net + 1 := by simpa using hb
      simp [Network.hostsList, describedHosts, hb1, List.map_map, Function.comp,
        IPAddr.value, List.mem_range'_1]
      omega
    · by_cases h128 : p = 128
      · subst h128
        simp [Network.hostsList, describedHosts, Network.addrObj, IPAddr.value]
      · have hlt : p < 127 := by omega
        have hge : 4 ≤ 2 ^ (128 - p) := by
          calc (4 : Nat) = 2 ^ 2 := rfl
          _ ≤ 2 ^ (128 - p) := Nat.pow_le_pow_right (by decide) (by omega)
        simp [Network.hostsList, describedHosts, hlt, h127, h128, hb, List.map_map,
          Function.comp, IPAddr.value, List.mem_range'_1]
        omega

theorem hostsList_pairwise (n : Network) :
    n.hostsList.Pairwise (fun a b => a.value < b.value) := by
  obtain ⟨ver, net, p, sc⟩ := n
  cases ver <;> simp only [Network.hostsList] <;> split
  · exact List.pairwise_map.mpr (List.pairwise_lt_range' _ _)
  · split
    · simp
    · exact List.pairwise_map.mpr (List.pairwise_lt_range' _ _)
  · exact List.pairwise_map.mpr (List.pairwise_lt_range' _ _)
  · split
    · simp
    · exact List.pairwise_map.mpr (List.pairwise_lt_range' _ _)

theorem hostsList_ne_nil {n : Network} (hv : n.Valid) : n.hostsList ≠ [] := by
  have hb := broadcastInt_eq hv
  have hp := hv.1
  obtain ⟨ver, net, p, sc⟩ := n
  cases ver with
  | v4 =>
    simp only [Network.maxPrefixlen, IpVersion.maxPrefixlen] at hp hb
    simp only [Network.hostsList]
    split
    · rename_i h31
      subst h31
      have hb1 : Network.broadcastInt ⟨.v4, net, 31, sc⟩ = net + 1 := by simpa using hb
      simp [hb1, List.range'_eq_nil]
      omega
    · split
      · simp
      · rename_i h31 h32
        have hge : 4 ≤ 2 ^ (32 - p) := by
          calc (4 : Nat) = 2 ^ 2 := rfl
          _ ≤ 2 ^ (32 - p) := Nat.pow_le_pow_right (by decide) (by omega)
        simp [hb, List.range'_eq_nil]
        omega
  | v6 =>
    simp only [Network.maxPrefixlen, IpVersion.maxPrefixlen] at hp hb
    simp only [Network.hostsList]
    split
    · rename_i h127
      subst h127
      have hb1 : Network.broadcastInt ⟨.v6, net, 127, sc⟩ = net + 1 := by simpa using hb
      simp [hb1, List.range'_eq_nil]
      omega
    · split
      · simp
      · rename_i h127 h128
        have hge : 4 ≤ 2 ^ (128 - p) := by
          calc (4 : Nat) = 2 ^ 2 := rfl
          _ ≤ 2 ^ (128 - p) := Nat.pow_le_pow_right (by decide) (by omega)
        simp [hb, List.range'_eq_nil]
        omega

/-- A full-length block's only host is the block address itself, scope id
included (`hosts()` is overridden to return the parsed address). -/
theorem hostsList_full_length {n : Network} (h : n.prefixlen = n.maxPrefixlen) :
    n.hostsList = [n.addrObj] := by
  obtain ⟨ver, net, p, sc⟩ := n
  cases ver with
  | v4 =>
    simp only [Network.maxPrefixlen, IpVersion.maxPrefixlen] at h
    subst h
    simp [Network.hostsList]
  | v6 =>
    simp only [Network.maxPrefixlen, IpVersion.maxPrefixlen] at h
    subst h
    simp [Network.hostsList]

/-- Below full length every enumerated host is constructed from its
integer value, hence unscoped. -/
theorem hostsList_not_full_unscoped {n : Network}
    (h : n.prefixlen ≠ n.maxPrefixlen) :
    ∀ a ∈ n.hostsList, a = n.hostAddr a.value := by
  obtain ⟨ver, net, p, sc⟩ := n
  cases ver with
  | v4 =>
    simp only [Network.maxPrefixlen, IpVersion.maxPrefixlen] at h
    intro a ha
    simp only [Network.hostsList] at ha
    by_cases h31 : p = 31
    · rw [if_pos h31] at ha
      obtain ⟨y, hy, rfl⟩ := List.mem_map.mp ha
      rfl
    · rw [if_neg h31, if_neg h] at ha
      obtain ⟨y, hy, rfl⟩ := List.mem_map.mp ha
      rfl
  | v6 =>
    simp only [Network.maxPrefixlen, IpVersion.maxPrefixlen] at h
    intro a ha
    simp only [Network.hostsList] at ha
    by_cases h127 : p = 127
    · rw [if_pos h127] at ha
      obtain ⟨y, hy, rfl⟩ := List.mem_map.mp ha
      rfl
    · rw [if_neg h127, if_neg h] at ha
      obtain ⟨y, hy, rfl⟩ := List.mem_map.mp ha
      rfl

/-- On a strictly sorted list, `find?` returns the least satisfying
element: everything smaller fails the predicate. -/
theorem find?_min_of_pairwise {l : List IPAddr} {p : IPAddr → Bool} {x : IPAddr}
    (hl : l.Pairwise (fun a b => a.value < b.value)) (h : l.find? p = some x) :
    ∀ y ∈ l, y.value < x.value → p y = false := by
  induction l with
  | nil => simp at h
  | cons a t ih =>
    rw [List.find?_cons] at h
    cases hl with
    | cons ha ht =>
      intro y hy hyx
      cases hpa : p a with
      | true =>
        rw [hpa] at h
        cases h
        rcases List.mem_cons.mp hy with rfl | hyt
        · omega
        · exact absurd (ha y hyt) (by omega)
      | false =>
        rw [hpa] at h
        rcases List.mem_cons.mp hy with rfl | hyt
        · exact hpa
        · exact ih ht h y hyt hyx

/-- A single unparseable entry makes the whole `mapM` of the used set fail. -/
theorem mapM_ip_address_error {used : List String} {u : String} {e : PyErr}
    (hu : u ∈ used) (he : ip_address u = .error e) :
    ∃ e2, used.mapM ip_address = .error e2 := by
  induction used with
  | nil => simp at hu
  | cons a t ih =>
    rw [List.mapM_cons]
    rcases List.mem_cons.mp hu with rfl | ht
    · rw [he]
      exact ⟨e, rfl⟩
    · cases ha : ip_address a with
      | error e1 => exact ⟨e1, rfl⟩
      | ok b =>
        obtain ⟨e2, h2⟩ := ih ht
        rw [h2]
        exact ⟨e2, rfl⟩

/-! ### Rewriting the repository functions on parse outcomes -/

theorem get_available_ip_parse_error {s : String} {used : List String} {e : PyErr}
    (h : ip_network s = .error e) : get_available_ip s used = none := by
  unfold get_available_ip
  rw [h]
  rfl

theorem get_available_ip_used_error {s : String} {used : List String} {n : Network}
    {e : PyErr} (h1 : ip_network s = .ok n) (h2 : used.mapM ip_address = .error e) :
    get_available_ip s used = none := by
  unfold get_available_ip
  rw [h1, h2]
  rfl

theorem get_available_ip_eq {s : String} {used : List String} {n : Network}
    {l : List IPAddr} (h1 : ip_network s = .ok n)
    (h2 : used.mapM ip_address = .ok l) :
    get_available_ip s used =
      (n.hostsList.find? (fun h => decide (h ∉ l))).map IPAddr.str := by
  unfold get_available_ip
  rw [h1, h2]
  rfl

theorem except_ok_bind {α β : Type} (a : α) (f : α → Except PyErr β) :
    (Except.ok a >>= f) = f a := rfl

theorem except_error_bind {α β : Type} (e : PyErr) (f : α → Except PyErr β) :
    ((Except.error e : Except PyErr α) >>= f) = .error e := rfl

theorem calculate_network_info_parse_error {s : String} {e : PyErr}
    (h : ip_network s = .error e) : calculate_network_info s = none := by
  unfold calculate_network_info
  rw [h]

theorem generate_subnets_parse_error {s : String} {nLen count : Int} {e : PyErr}
    (h : ip_network s = .error e) :
    generate_subnets s nLen count =
      .error (.valueError ("Error generating subnets: " ++ e.msg)) := by
  unfold generate_subnets
  rw [h, except_error_bind]
  simp [ip_network_error_isValueError h]

theorem subnetsList_error_isValueError {p : Network} {nLen : Int} {e : PyErr}
    (h : p.subnetsList nLen = .error e) : e.isValueError = true := by
  simp only [Network.subnetsList] at h
  split at h
  · exact absurd h (by simp)
  · split at h
    · cases h; rfl
    · split at h
      · cases h; rfl
      · exact absurd h (by simp)

theorem generate_subnets_inner_error {s : String} {nLen count : Int} {p : Network}
    {e : PyErr} (h1 : ip_network s = .ok p) (h2 : p.subnetsList nLen = .error e) :
    generate_subnets s nLen count =
      .error (.valueError ("Error generating subnets: " ++ e.msg)) := by
  unfold generate_subnets
  rw [h1, except_ok_bind, h2, except_error_bind]
  simp [subnetsList_error_isValueError h2]

theorem generate_subnets_eq_ok {s : String} {nLen count : Int} {p : Network}
    {subs : List Network} (h1 : ip_network s = .ok p)
    (h2 : p.subnetsList nLen = .ok subs) :
    generate_subnets s nLen count = .ok ((pySliceTo subs count).map Network.str) := by
  unfold generate_subnets
  rw [h1, except_ok_bind, h2, except_ok_bind]
  rfl

theorem subnetsList_ok {p : Network} (hv : p.Valid) {nLen : Int}
    (hge : (p.prefixlen : Int) ≤ nLen) (hle : nLen ≤ (p.maxPrefixlen : Int)) :
    ∃ subs : List Network,
      p.subnetsList nLen = .ok subs ∧
      subs.length = 2 ^ (nLen.toNat - p.prefixlen) ∧
      (∀ i (hi : i < subs.length),
        (subs.get ⟨i, hi⟩).version = p.version ∧
        (subs.get ⟨i, hi⟩).prefixlen = nLen.toNat ∧
        (subs.get ⟨i, hi⟩).networkAddress =
          p.networkAddress + i * 2 ^ (p.maxPrefixlen - nLen.toNat)) := by
  by_cases hmax : p.prefixlen = p.maxPrefixlen
  · have hn : nLen.toNat = p.prefixlen := by omega
    refine ⟨[p], ?_, ?_, ?_⟩
    · simp [Network.subnetsList, hmax]
    · simp [hn]
    · intro i hi
      have hi0 : i = 0 := by simpa using hi
      subst hi0
      simp [hn, hmax]
  · have hplt : p.prefixlen < p.maxPrefixlen := Nat.lt_of_le_of_ne (by omega) hmax
    have hnneg : ¬ nLen < (p.prefixlen : Int) := by omega
    set diff := (nLen - (p.prefixlen : Int)).toNat with hdiff
    have hdiffeq : p.prefixlen + diff = nLen.toNat := by omega
    have hdiffle : diff ≤ p.maxPrefixlen - p.prefixlen := by omega
    have hnewle : ¬ p.maxPrefixlen < p.prefixlen + diff := by omega
    set K := p.maxPrefixlen - p.prefixlen with hK
    have hbc := broadcastInt_eq hv
    have hhm := hostmaskInt_eq p hv.1
    rw [← hK] at hbc hhm
    have hstep : (p.hostmaskInt + 1) >>> diff = 2 ^ (K - diff) := by
      rw [hhm, Nat.sub_add_cancel Nat.one_le_two_pow, Nat.shiftRight_eq_div_pow]
      exact Nat.pow_div hdiffle (by decide)
    have hSpos : (0 : Nat) < 2 ^ (K - diff) := Nat.two_pow_pos _
    have hcnt : (p.broadcastInt + 1 - p.networkAddress + 2 ^ (K - diff) - 1) /
        2 ^ (K - diff) = 2 ^ diff := by
      have h2K : (2 : Nat) ^ K = 2 ^ (K - diff) * 2 ^ diff := by
        rw [← Nat.pow_add]
        congr 1
        omega
      have hnum : p.broadcastInt + 1 - p.networkAddress + 2 ^ (K - diff) - 1 =
          2 ^ (K - diff) * 2 ^ diff + (2 ^ (K - diff) - 1) := by
        rw [hbc, ← h2K]
        have h1 : (1 : Nat) ≤ 2 ^ K := Nat.one_le_two_pow
        have h2 : (1 : Nat) ≤ 2 ^ (K - diff) := Nat.one_le_two_pow
        omega
      rw [hnum, Nat.mul_add_div hSpos,
        Nat.div_eq_of_lt (show 2 ^ (K - diff) - 1 < 2 ^ (K - diff) by omega)]
      rfl
    refine ⟨(rangeStepList p.networkAddress (p.broadcastInt + 1)
        ((p.hostmaskInt + 1) >>> diff)).map
        (fun a => ⟨p.version, a, p.prefixlen + diff, none⟩), ?_, ?_, ?_⟩
    · simp only [Network.subnetsList]
      rw [if_neg hmax, if_neg hnneg, if_neg hnewle]
    · simp only [rangeStepList, List.length_map, List.length_range, hstep]
      rw [hcnt]
      congr 1
      omega
    · intro i hi
      simp only [rangeStepList, List.get_eq_getElem, List.getElem_map,
        List.getElem_range]
      refine ⟨by trivial, by omega, ?_⟩
      rw [hstep]
      have hexp : K - diff = p.maxPrefixlen - nLen.toNat := by omega
      rw [hexp]

/-! ### Claim theorems -/

set_option maxRecDepth 200000

/-- C2 (counterexample): the claim says `ValidateBlock` accepts the loose
address-with-mask form `10.0.0.1/16`; the code parses with `strict=True`
(the host-bits `ValueError` is caught and turned into `false`), so it is
rejected. -/
theorem validateBlock_nonCanonical_counterexample :
    validate_cidr "10.0.0.1/16" = false := rfl

/-- C2 (amended): `validate_cidr` returns true exactly on strict parses —
every accepted string yields a network whose host bits are already zero
(`addr AND netmask = addr`), every parse failure (including non-canonical
address-with-mask forms) returns false rather than raising, and in
particular `10.0.0.1/16` is rejected while `10.0.0.0/16` is accepted. -/
theorem validateBlock_strict :
    (∀ s n, ip_network s = .ok n → validate_cidr s = true ∧
      n.networkAddress &&& n.netmaskInt = n.networkAddress) ∧
    (∀ s e, ip_network s = .error e → validate_cidr s = false) ∧
    validate_cidr "10.0.0.1/16" = false ∧ validate_cidr "10.0.0.0/16" = true := by
  refine ⟨?_, ?_, rfl, rfl⟩
  · intro s n h
    constructor
    · unfold validate_cidr
      rw [h]
    · exact (ip_network_ok_valid h).2
  · intro s e h
    unfold validate_cidr
    rw [h]

/-- C2 witness: the general statement applied to `10.0.0.0/16`. -/
theorem validateBlock_strict_witness :
    ip_network "10.0.0.0/16" = .ok (Network.mk .v4 167772160 16 none) ∧
    (validate_cidr "10.0.0.0/16" = true ∧
      (Network.mk .v4 167772160 16 none).networkAddress &&&
        (Network.mk .v4 167772160 16 none).netmaskInt =
        (Network.mk .v4 167772160 16 none).networkAddress) :=
  ⟨rfl, validateBlock_strict.1 "10.0.0.0/16" (Network.mk .v4 167772160 16 none) rfl⟩

/-- C5 (counterexample): for the /32 block `10.0.0.5/32` the claim wants a
usable-host count equal to the total address count (1); the code reports
`num_addresses - 2 = -1` for every IPv4 block. -/
theorem describeBlock_slash32_usableHosts_counterexample :
    (calculate_network_info "10.0.0.5/32").map NetworkInfo.usable_hosts = some (-1) ∧
    (calculate_network_info "10.0.0.5/32").map NetworkInfo.num_addresses = some 1 :=
  ⟨rfl, rfl⟩

/-- C5 (amended): for every block the code accepts, the reported total
address count is the full block size `2 ^ (maxPrefixlen - prefixlen)`, and
the reported usable-host count is `total - 2` for every IPv4 block — with
no special case at /31 or /32, so those report 0 and -1 — and exactly
`total` for every IPv6 block. -/
theorem describeBlock_usableHosts :
    ∀ s n info, ip_network s = .ok n → calculate_network_info s = some info →
      info.num_addresses = 2 ^ (n.maxPrefixlen - n.prefixlen) ∧
      info.usable_hosts = (if n.version = .v4 then (info.num_addresses : Int) - 2
        else (info.num_addresses : Int)) := by
  intro s n info h1 h2
  unfold calculate_network_info at h2
  rw [h1] at h2
  simp only at h2
  cases h2
  exact ⟨numAddresses_eq (ip_network_ok_valid h1), rfl⟩

/-- C5 witness: the general statement applied to `10.0.0.0/30`. -/
theorem describeBlock_usableHosts_witness :
    ip_network "10.0.0.0/30" = .ok (Network.mk .v4 167772160 30 none) ∧
    calculate_network_info "10.0.0.0/30" = some ⟨"10.0.0.0", "10.0.0.3",
      "255.255.255.252", "0.0.0.3", 30, 4, 2, some "10.0.0.1", some "10.0.0.2"⟩ ∧
    ((⟨"10.0.0.0", "10.0.0.3", "255.255.255.252", "0.0.0.3", 30, 4, 2,
        some "10.0.0.1", some "10.0.0.2"⟩ : NetworkInfo).num_addresses =
      2 ^ ((Network.mk .v4 167772160 30 none).maxPrefixlen -
        (Network.mk .v4 167772160 30 none).prefixlen) ∧
     (⟨"10.0.0.0", "10.0.0.3", "255.255.255.252", "0.0.0.3", 30, 4, 2,
        some "10.0.0.1", some "10.0.0.2"⟩ : NetworkInfo).usable_hosts =
      (if (Network.mk .v4 167772160 30 none).version = .v4 then
        ((⟨"10.0.0.0", "10.0.0.3", "255.255.255.252", "0.0.0.3", 30, 4, 2,
          some "10.0.0.1", some "10.0.0.2"⟩ : NetworkInfo).num_addresses : Int) - 2
       else ((⟨"10.0.0.0", "10.0.0.3", "255.255.255.252", "0.0.0.3", 30, 4, 2,
          some "10.0.0.1", some "10.0.0.2"⟩ : NetworkInfo).num_addresses : Int))) :=
  ⟨rfl, rfl, describeBlock_usableHosts "10.0.0.0/30" (Network.mk .v4 167772160 30 none)
    ⟨"10.0.0.0", "10.0.0.3", "255.255.255.252", "0.0.0.3", 30, 4, 2,
      some "10.0.0.1", some "10.0.0.2"⟩ rfl rfl⟩

/-- C7 (counterexample): for the /32 block `10.0.0.5/32` (zero usable
hosts under the claim's point-to-point convention) the claim wants absent
first/last usable hosts; the code reports the block's single address for
both, because `hosts()` is nonempty for every parseable block. -/
theorem describeBlock_slash32_firstUsable_counterexample :
    Option.bind (calculate_network_info "10.0.0.5/32") NetworkInfo.first_usable =
      some "10.0.0.5" ∧
    Option.bind (calculate_network_info "10.0.0.5/32") NetworkInfo.last_usable =
      some "10.0.0.5" := ⟨rfl, rfl⟩

/-- C7 (amended): for every block the code accepts — including /31, /32,
/127 and /128 blocks — the reported first and last usable hosts are
present (never `None`), being the endpoints of the `hosts()` list, which
is nonempty for every parseable block. -/
theorem describeBlock_firstLastPresent :
    ∀ s n info, ip_network s = .ok n → calculate_network_info s = some info →
      info.first_usable.isSome = true ∧ info.last_usable.isSome = true := by
  intro s n info h1 h2
  unfold calculate_network_info at h2
  rw [h1] at h2
  simp only at h2
  cases h2
  have hne := hostsList_ne_nil (ip_network_ok_valid h1)
  constructor
  · cases ho : n.hostsList.head? with
    | none => exact absurd (List.head?_eq_none_iff.mp ho) hne
    | some a => simp [ho]
  · cases ho : n.hostsList.getLast? with
    | none => exact absurd (List.getLast?_eq_none_iff.mp ho) hne
    | some a => simp [ho]

/-- C7 witness: the general statement applied to the /32 block
`10.0.0.5/32`. -/
theorem describeBlock_firstLastPresent_witness :
    ip_network "10.0.0.5/32" = .ok (Network.mk .v4 167772165 32 none) ∧
    calculate_network_info "10.0.0.5/32" = some ⟨"10.0.0.5", "10.0.0.5",
      "255.255.255.255", "0.0.0.0", 32, 1, -1, some "10.0.0.5", some "10.0.0.5"⟩ ∧
    ((some "10.0.0.5" : Option String).isSome = true ∧
     (some "10.0.0.5" : Option String).isSome = true) :=
  ⟨rfl, rfl, describeBlock_firstLastPresent "10.0.0.5/32"
    (Network.mk .v4 167772165 32 none)
    ⟨"10.0.0.5", "10.0.0.5", "255.255.255.255", "0.0.0.0", 32, 1, -1,
      some "10.0.0.5", some "10.0.0.5"⟩ (by rfl) (by rfl)⟩

/-- C8 (confirmed): `DescribeBlock("192.168.1.0/24")` returns exactly the
claimed attributes, and every string that fails to parse yields the empty
result rather than an exception. -/
theorem describeBlock_example :
    calculate_network_info "192.168.1.0/24" = some ⟨"192.168.1.0", "192.168.1.255",
      "255.255.255.0", "0.0.0.255", 24, 256, 254, some "192.168.1.1",
      some "192.168.1.254"⟩ ∧
    (∀ s e, ip_network s = .error e → calculate_network_info s = none) := by
  refine ⟨rfl, ?_⟩
  intro s e h
  exact calculate_network_info_parse_error h

/-- C8 witness: the invalid-input half applied to `not-a-cidr`. -/
theorem describeBlock_example_witness :
    ip_network "not-a-cidr" =
      .error (.valueError "not-a-cidr does not appear to be an IPv4 or IPv6 network") ∧
    calculate_network_info "not-a-cidr" = none :=
  ⟨rfl, describeBlock_example.2 "not-a-cidr"
    (.valueError "not-a-cidr does not appear to be an IPv4 or IPv6 network") rfl⟩

/-- C9 (counterexample): the claim says a leading-zero entry such as
`010.000.000.001` excludes the same host as `10.0.0.1`; in fact that form
no longer parses (leading zeros are rejected since bpo-36384), so the
whole call returns none instead of skipping `10.0.0.1`. -/
theorem firstAvailableHost_leadingZeros_counterexample :
    get_available_ip "10.0.0.0/24" ["010.000.000.001"] = none ∧
    get_available_ip "10.0.0.0/24" ["10.0.0.1"] = some "10.0.0.2" := ⟨rfl, rfl⟩

/-- C9 (amended): used entries are compared by parsed address value — the
result depends on `used_ips` only through the parses, so textual variants
of the same value (IPv6 upper case, zero compression) exclude the same
host — but the IPv4 leading-zero form `010.000.000.001` fails to parse,
and such an entry makes the whole call return none. -/
theorem firstAvailableHost_numericComparison :
    (∀ s used1 used2, used1.mapM ip_address = used2.mapM ip_address →
      get_available_ip s used1 = get_available_ip s used2) ∧
    (ip_address "010.000.000.001").toOption = none ∧
    get_available_ip "10.0.0.0/24" ["010.000.000.001"] = none ∧
    get_available_ip "2001:db8::/126" ["2001:DB8::1"] = some "2001:db8::2" ∧
    get_available_ip "2001:db8::/126" ["2001:db8:0:0:0:0:0:1"] = some "2001:db8::2" := by
  refine ⟨?_, rfl, rfl, rfl, rfl⟩
  intro s used1 used2 h
  unfold get_available_ip
  rw [h]

/-- C9 witness: value-based comparison applied to two textual variants of
the IPv6 address `2001:db8::1`. -/
theorem firstAvailableHost_numericComparison_witness :
    (["2001:DB8::1"].mapM ip_address = ["2001:db8:0:0:0:0:0:1"].mapM ip_address) ∧
    get_available_ip "2001:db8::/126" ["2001:DB8::1"] =
      get_available_ip "2001:db8::/126" ["2001:db8:0:0:0:0:0:1"] :=
  ⟨rfl, firstAvailableHost_numericComparison.1 "2001:db8::/126"
    ["2001:DB8::1"] ["2001:db8:0:0:0:0:0:1"] rfl⟩

/-- C10 (confirmed): for a valid block, one used entry that fails to parse
as an IP address makes `get_available_ip` return none for the whole call,
regardless of how many usable hosts remain free. -/
theorem firstAvailableHost_malformedUsedEntry :
    ∀ s used n u e, ip_network s = .ok n → u ∈ used → ip_address u = .error e →
      get_available_ip s used = none := by
  intro s used n u e h1 hu he
  obtain ⟨e2, h2⟩ := mapM_ip_address_error hu he
  exact get_available_ip_used_error h1 h2

/-- C10 witness: the statement applied to `10.0.0.0/24` with the single
malformed used entry `garbage`. -/
theorem firstAvailableHost_malformedUsedEntry_witness :
    ip_network "10.0.0.0/24" = .ok (Network.mk .v4 167772160 24 none) ∧
    "garbage" ∈ ["garbage"] ∧
    ip_address "garbage" =
      .error (.valueError "garbage does not appear to be an IPv4 or IPv6 address") ∧
    get_available_ip "10.0.0.0/24" ["garbage"] = none :=
  ⟨rfl, List.mem_singleton.mpr rfl, rfl,
    firstAvailableHost_malformedUsedEntry "10.0.0.0/24" ["garbage"]
      (Network.mk .v4 167772160 24 none) "garbage"
      (.valueError "garbage does not appear to be an IPv4 or IPv6 address")
      rfl (List.mem_singleton.mpr rfl) rfl⟩

/-- C1 (counterexample): for the /31 block `10.0.0.0/31` the code hands
out the network address itself (`hosts()` yields both /31 addresses),
which the claim's "excluding the network address" forbids; the reported
network address of the block is indeed `10.0.0.0`. -/
theorem firstAvailableHost_slash31_counterexample :
    get_available_ip "10.0.0.0/31" [] = some "10.0.0.0" ∧
    (calculate_network_info "10.0.0.0/31").map NetworkInfo.network_address =
      some "10.0.0.0" := ⟨rfl, rfl⟩

/-- C1 (amended): `get_available_ip` enumerates the `hosts()` objects of
the block in strictly ascending numeric order — for IPv4 prefix < 31 the
addresses strictly between network and broadcast, for /31 and IPv6 /127
both block addresses (network address included), for /32 and /128 the
single block address (which keeps any scope id of the parsed text), and
for IPv6 prefix < 127 everything above the network address, every host
below full length being constructed unscoped from its integer value —
returning the text of the first host not among the parsed used addresses
(Python address equality, scope id included); it returns none when the
block fails to parse or every enumerated host is used; and
`FirstAvailableHost("192.168.1.0/30", []) = "192.168.1.1"`. -/
theorem firstAvailableHost_enumeration :
    (∀ (s : String) (used : List String) (e : PyErr), ip_network s = .error e →
      get_available_ip s used = none) ∧
    (∀ (s : String) (used : List String) (n : Network) (l : List IPAddr),
      ip_network s = .ok n → used.mapM ip_address = .ok l →
      n.hostsList.Pairwise (fun a b => a.value < b.value) ∧
      (∀ x, x ∈ n.hostsList.map IPAddr.value ↔ describedHosts n x) ∧
      (n.prefixlen = n.maxPrefixlen → n.hostsList = [n.addrObj]) ∧
      (n.prefixlen ≠ n.maxPrefixlen → ∀ a ∈ n.hostsList, a = n.hostAddr a.value) ∧
      (∀ r, get_available_ip s used = some r →
        ∃ a, a ∈ n.hostsList ∧ r = a.str ∧ a ∉ l ∧
          ∀ b ∈ n.hostsList, b.value < a.value → b ∈ l) ∧
      (get_available_ip s used = none → ∀ a ∈ n.hostsList, a ∈ l)) ∧
    get_available_ip "192.168.1.0/30" [] = some "192.168.1.1" := by
  refine ⟨?_, ?_, rfl⟩
  · intro s used e h
    exact get_available_ip_parse_error h
  · intro s used n l h1 h2
    have hv := ip_network_ok_valid h1
    have heq := get_available_ip_eq h1 h2
    refine ⟨hostsList_pairwise n, fun x => hostsList_mem hv x,
      hostsList_full_length, hostsList_not_full_unscoped, ?_, ?_⟩
    · intro r hr
      rw [heq] at hr
      cases hf : n.hostsList.find? (fun h => decide (h ∉ l)) with
      | none => rw [hf] at hr; exact absurd hr (by simp)
      | some a =>
        rw [hf] at hr
        simp only [Option.map_some'] at hr
        refine ⟨a, List.mem_of_find?_eq_some hf, (Option.some.inj hr).symm, ?_, ?_⟩
        · simpa using List.find?_some hf
        · intro b hmem hlt
          simpa using find?_min_of_pairwise (hostsList_pairwise n) hf b hmem hlt
    · intro hnone a hmem
      rw [heq] at hnone
      cases hf : n.hostsList.find? (fun h => decide (h ∉ l)) with
      | some x => rw [hf] at hnone; exact absurd hnone (by simp)
      | none => simpa using List.find?_eq_none.mp hf a hmem

/-- C1 witness: the characterization applied to `192.168.1.0/30` with no
used addresses. -/
theorem firstAvailableHost_enumeration_witness :
    ip_network "192.168.1.0/30" = .ok (Network.mk .v4 3232235776 30 none) ∧
    ([] : List String).mapM ip_address = .ok ([] : List IPAddr) ∧
    ((Network.mk .v4 3232235776 30 none).hostsList.Pairwise
       (fun a b => a.value < b.value) ∧
     (∀ x, x ∈ (Network.mk .v4 3232235776 30 none).hostsList.map IPAddr.value ↔
       describedHosts (Network.mk .v4 3232235776 30 none) x) ∧
     ((Network.mk .v4 3232235776 30 none).prefixlen =
        (Network.mk .v4 3232235776 30 none).maxPrefixlen →
       (Network.mk .v4 3232235776 30 none).hostsList =
         [(Network.mk .v4 3232235776 30 none).addrObj]) ∧
     ((Network.mk .v4 3232235776 30 none).prefixlen ≠
        (Network.mk .v4 3232235776 30 none).maxPrefixlen →
       ∀ a ∈ (Network.mk .v4 3232235776 30 none).hostsList,
         a = (Network.mk .v4 3232235776 30 none).hostAddr a.value) ∧
     (∀ r, get_available_ip "192.168.1.0/30" [] = some r →
       ∃ a, a ∈ (Network.mk .v4 3232235776 30 none).hostsList ∧
         r = a.str ∧ a ∉ ([] : List IPAddr) ∧
         ∀ b ∈ (Network.mk .v4 3232235776 30 none).hostsList,
           b.value < a.value → b ∈ ([] : List IPAddr)) ∧
     (get_available_ip "192.168.1.0/30" [] = none →
       ∀ a ∈ (Network.mk .v4 3232235776 30 none).hostsList,
         a ∈ ([] : List IPAddr))) :=
  ⟨rfl, rfl, firstAvailableHost_enumeration.2.1 "192.168.1.0/30" []
    (Network.mk .v4 3232235776 30 none) [] (by rfl) (by rfl)⟩

/-- C6 (counterexample): mismatched IPv4/IPv6 inputs do not return false:
`is_subnet_of("10.0.0.0/8", "2001:db8::/32")` escapes with the library's
`TypeError`, which the function's `except ValueError` does not catch. -/
theorem isContainedIn_typeError_counterexample :
    is_subnet_of "10.0.0.0/8" "2001:db8::/32" =
      .error (.typeError "2001:db8::/32 and 10.0.0.0/8 are not of the same version") := rfl

/-- C6 (amended): the only exception that escapes `is_subnet_of` is the
`TypeError` raised exactly when both strings parse but as different IP
versions; parse failures of either string are caught and yield `false`. -/
theorem isContainedIn_versionMismatch :
    ∀ parentCidr subnetCidr : String,
      (∀ e, is_subnet_of parentCidr subnetCidr = .error e → ∃ m, e = .typeError m) ∧
      ((∃ m, is_subnet_of parentCidr subnetCidr = .error (.typeError m)) ↔
        (∃ np ns, ip_network parentCidr = .ok np ∧ ip_network subnetCidr = .ok ns ∧
          np.version ≠ ns.version)) ∧
      (∀ e, ip_network parentCidr = .error e →
        is_subnet_of parentCidr subnetCidr = .ok false) ∧
      (∀ np e, ip_network parentCidr = .ok np → ip_network subnetCidr = .error e →
        is_subnet_of parentCidr subnetCidr = .ok false) := by
  intro pc sCidr
  cases hp : ip_network pc with
  | error e1 =>
    have hres : is_subnet_of pc sCidr = .ok false := by
      unfold is_subnet_of
      rw [hp]
      simp [ip_network_error_isValueError hp]
    refine ⟨?_, ?_, fun e h => hres, ?_⟩
    · intro e he
      rw [hres] at he
      exact absurd he (by simp)
    · constructor
      · rintro ⟨m, hm⟩
        rw [hres] at hm
        exact absurd hm (by simp)
      · rintro ⟨np, ns, hnp, -, -⟩
        exact absurd hnp (by simp)
    · intro np e h h2
      exact absurd h (by simp)
  | ok np =>
    cases hs : ip_network sCidr with
    | error e2 =>
      have hres : is_subnet_of pc sCidr = .ok false := by
        unfold is_subnet_of
        rw [hp, hs]
        simp [ip_network_error_isValueError hs]
      refine ⟨?_, ?_, ?_, fun np' e h h2 => hres⟩
      · intro e he
        rw [hres] at he
        exact absurd he (by simp)
      · constructor
        · rintro ⟨m, hm⟩
          rw [hres] at hm
          exact absurd hm (by simp)
        · rintro ⟨np', ns', -, hns', -⟩
          exact absurd hns' (by simp)
      · intro e h
        exact absurd h (by simp)
    | ok ns =>
      have hres : is_subnet_of pc sCidr = isSubnetOfImpl ns np := by
        unfold is_subnet_of
        rw [hp, hs]
      by_cases hver : ns.version = np.version
      · have himpl : isSubnetOfImpl ns np =
            .ok (np.addrObj.pyLe ns.addrObj && decide (ns.broadcastInt ≤ np.broadcastInt)) := by
          unfold isSubnetOfImpl
          rw [if_neg (not_not_intro hver)]
        rw [himpl] at hres
        refine ⟨?_, ?_, ?_, ?_⟩
        · intro e he
          rw [hres] at he
          exact absurd he (by simp)
        · constructor
          · rintro ⟨m, hm⟩
            rw [hres] at hm
            exact absurd hm (by simp)
          · rintro ⟨np', ns', hnp', hns', hne⟩
            injection hnp' with hq
            injection hns' with hq2
            subst hq
            subst hq2
            exact absurd hver.symm hne
        · intro e h
          exact absurd h (by simp)
        · intro np' e h h2
          exact absurd h2 (by simp)
      · have himpl : isSubnetOfImpl ns np = .error (.typeError
            (ns.str ++ " and " ++ np.str ++ " are not of the same version")) := by
          unfold isSubnetOfImpl
          rw [if_pos hver]
        rw [himpl] at hres
        refine ⟨?_, ?_, ?_, ?_⟩
        · intro e he
          rw [hres] at he
          injection he with h
          exact ⟨_, h.symm⟩
        · constructor
          · intro _
            exact ⟨np, ns, rfl, rfl, fun hcontra => hver hcontra.symm⟩
          · intro _
            exact ⟨_, hres⟩
        · intro e h
          exact absurd h (by simp)
        · intro np' e h h2
          exact absurd h2 (by simp)

/-- C6 witness: the parse-failure half applied to an invalid parent. -/
theorem isContainedIn_versionMismatch_witness :
    is_subnet_of "bad" "10.0.0.0/24" = .ok false :=
  (isContainedIn_versionMismatch "bad" "10.0.0.0/24").2.2.1
    (.valueError "bad does not appear to be an IPv4 or IPv6 network") rfl

/-- C3 (confirmed): for a valid parent and an in-range new prefix length,
`generate_subnets` returns the subnets of the parent at the new length in
strictly ascending numeric order, truncated to `min(count, 2^(n-m))`
entries, rendered as CIDR strings; and the concrete partition example. -/
theorem generatePartition_ok :
    (∀ (s : String) (p : Network) (nLen count : Int),
      ip_network s = .ok p → (p.prefixlen : Int) ≤ nLen →
      nLen ≤ (p.maxPrefixlen : Int) → 0 ≤ count →
      ∃ nets : List Network,
        generate_subnets s nLen count = .ok (nets.map Network.str) ∧
        nets.length = min count.toNat (2 ^ (nLen.toNat - p.prefixlen)) ∧
        (∀ i (hi : i < nets.length),
          (nets.get ⟨i, hi⟩).version = p.version ∧
          (nets.get ⟨i, hi⟩).prefixlen = nLen.toNat ∧
          (nets.get ⟨i, hi⟩).networkAddress =
            p.networkAddress + i * 2 ^ (p.maxPrefixlen - nLen.toNat)) ∧
        nets.Pairwise (fun a b => a.networkAddress < b.networkAddress)) ∧
    generate_subnets "10.0.0.0/16" 18 5 =
      .ok ["10.0.0.0/18", "10.0.64.0/18", "10.0.128.0/18", "10.0.192.0/18"] := by
  refine ⟨?_, by rfl⟩
  intro s p nLen count h1 hge hle hcnt0
  obtain ⟨subs, hsub, hlen, hget⟩ := subnetsList_ok (ip_network_ok_valid h1) hge hle
  have hslice : pySliceTo subs count = subs.take count.toNat := by
    unfold pySliceTo
    rw [if_neg (by omega)]
  have hlen2 : (pySliceTo subs count).length =
      min count.toNat (2 ^ (nLen.toNat - p.prefixlen)) := by
    rw [hslice, List.length_take, hlen]
  refine ⟨pySliceTo subs count, generate_subnets_eq_ok h1 hsub, hlen2, ?_, ?_⟩
  · intro i hi
    have hi' : i < subs.length := by
      rw [hlen2] at hi
      omega
    have hele : (pySliceTo subs count).get ⟨i, hi⟩ = subs.get ⟨i, hi'⟩ := by
      simp only [List.get_eq_getElem, hslice, List.getElem_take]
    rw [hele]
    exact hget i hi'
  · rw [List.pairwise_iff_get]
    intro i j hij
    have hi' : (i : Nat) < subs.length := by
      have := i.isLt
      omega
    have hj' : (j : Nat) < subs.length := by
      have := j.isLt
      omega
    have egi : (pySliceTo subs count).get i = subs.get ⟨i, hi'⟩ := by
      simp only [List.get_eq_getElem, hslice, List.getElem_take]
    have egj : (pySliceTo subs count).get j = subs.get ⟨j, hj'⟩ := by
      simp only [List.get_eq_getElem, hslice, List.getElem_take]
    rw [egi, egj, (hget i hi').2.2, (hget j hj').2.2]
    have hS : 0 < 2 ^ (p.maxPrefixlen - nLen.toNat) := Nat.two_pow_pos _
    have hijn : (i : Nat) < (j : Nat) := hij
    exact Nat.add_lt_add_left (Nat.mul_lt_mul_of_pos_right hijn hS) _

/-- C3 witness: the general statement applied to the partition of
`10.0.0.0/16` into /18 blocks with count 5. -/
theorem generatePartition_ok_witness :
    ip_network "10.0.0.0/16" = .ok (Network.mk .v4 167772160 16 none) ∧
    (((Network.mk .v4 167772160 16 none).prefixlen : Int) ≤ 18 ∧
      (18 : Int) ≤ ((Network.mk .v4 167772160 16 none).maxPrefixlen : Int) ∧
      (0 : Int) ≤ 5) ∧
    (∃ nets : List Network,
      generate_subnets "10.0.0.0/16" 18 5 = .ok (nets.map Network.str) ∧
      nets.length = min (5 : Int).toNat
        (2 ^ ((18 : Int).toNat - (Network.mk .v4 167772160 16 none).prefixlen)) ∧
      (∀ i (hi : i < nets.length),
        (nets.get ⟨i, hi⟩).version = (Network.mk .v4 167772160 16 none).version ∧
        (nets.get ⟨i, hi⟩).prefixlen = (18 : Int).toNat ∧
        (nets.get ⟨i, hi⟩).networkAddress =
          (Network.mk .v4 167772160 16 none).networkAddress +
            i * 2 ^ ((Network.mk .v4 167772160 16 none).maxPrefixlen -
              (18 : Int).toNat)) ∧
      nets.Pairwise (fun a b => a.networkAddress < b.networkAddress)) :=
  ⟨rfl, ⟨by decide, by decide, by decide⟩,
    generatePartition_ok.1 "10.0.0.0/16" (Network.mk .v4 167772160 16 none) 18 5
      rfl (by decide) (by decide) (by decide)⟩

theorem subnetsList_error {p : Network} {nLen : Int}
    (hple : p.prefixlen ≤ p.maxPrefixlen) (hnm : p.prefixlen ≠ p.maxPrefixlen)
    (hbad : nLen < (p.prefixlen : Int) ∨ (p.maxPrefixlen : Int) < nLen) :
    ∃ m, p.subnetsList nLen = .error (.valueError m) := by
  simp only [Network.subnetsList]
  rw [if_neg hnm]
  rcases hbad with h | h
  · rw [if_pos h]
    exact ⟨_, rfl⟩
  · rw [if_neg (by omega), if_pos (by omega)]
    exact ⟨_, rfl⟩

/-- C4 (counterexample): for a full-length parent, `subnets()` yields the
parent itself before any prefix check, so
`GeneratePartition("10.0.0.0/32", 23, 1)` succeeds although the requested
prefix 23 is shorter than the parent's 32, where the claim demands an
`InvalidBlock` failure. -/
theorem generatePartition_fullLength_counterexample :
    generate_subnets "10.0.0.0/32" 23 1 = .ok ["10.0.0.0/32"] := rfl

/-- C4 (amended): `generate_subnets` fails — with a `ValueError` whose
message prefixes `Error generating subnets: ` to a description of the
violation — when the parent text fails to validate, or when the parent is
not a full-length block and the new prefix length is shorter than the
parent's or exceeds the family maximum; a full-length (/32 or /128)
parent accepts any new prefix length and returns itself, and every
in-range request succeeds; in particular
`GeneratePartition("10.0.0.0/24", 23, 1)` fails. -/
theorem generatePartition_invalid :
    (∀ (s : String) (nLen count : Int) (e : PyErr), ip_network s = .error e →
      ∃ m, generate_subnets s nLen count =
        .error (.valueError ("Error generating subnets: " ++ m))) ∧
    (∀ (s : String) (nLen count : Int) (p : Network), ip_network s = .ok p →
      p.prefixlen < p.maxPrefixlen →
      (nLen < (p.prefixlen : Int) ∨ (p.maxPrefixlen : Int) < nLen) →
      ∃ m, generate_subnets s nLen count =
        .error (.valueError ("Error generating subnets: " ++ m))) ∧
    (∀ (s : String) (nLen count : Int) (p : Network), ip_network s = .ok p →
      (p.prefixlen = p.maxPrefixlen ∨
        ((p.prefixlen : Int) ≤ nLen ∧ nLen ≤ (p.maxPrefixlen : Int))) →
      ∃ l, generate_subnets s nLen count = .ok l) ∧
    generate_subnets "10.0.0.0/24" 23 1 =
      .error (.valueError "Error generating subnets: new prefix must be longer") := by
  refine ⟨?_, ?_, ?_, by rfl⟩
  · intro s nLen count e h
    exact ⟨e.msg, generate_subnets_parse_error h⟩
  · intro s nLen count p h1 hlt hbad
    obtain ⟨m, hm⟩ := subnetsList_error (ip_network_ok_valid h1).1 (Nat.ne_of_lt hlt) hbad
    exact ⟨m, generate_subnets_inner_error h1 hm⟩
  · intro s nLen count p h1 hok
    rcases hok with hmax | ⟨hge, hle⟩
    · have hsub : p.subnetsList nLen = .ok [p] := by
        simp only [Network.subnetsList]
        rw [if_pos hmax]
      exact ⟨_, generate_subnets_eq_ok h1 hsub⟩
    · obtain ⟨subs, hsub, -, -⟩ := subnetsList_ok (ip_network_ok_valid h1) hge hle
      exact ⟨_, generate_subnets_eq_ok h1 hsub⟩

/-- C4 witness: the short-prefix failure applied to
`GeneratePartition("10.0.0.0/24", 23, 1)`. -/
theorem generatePartition_invalid_witness :
    ip_network "10.0.0.0/24" = .ok (Network.mk .v4 167772160 24 none) ∧
    (Network.mk .v4 167772160 24 none).prefixlen <
      (Network.mk .v4 167772160 24 none).maxPrefixlen ∧
    ((23 : Int) < ((Network.mk .v4 167772160 24 none).prefixlen : Int) ∨
      ((Network.mk .v4 167772160 24 none).maxPrefixlen : Int) < 23) ∧
    (∃ m, generate_subnets "10.0.0.0/24" 23 1 =
      .error (.valueError ("Error generating subnets: " ++ m))) :=
  ⟨rfl, by decide, Or.inl (by decide),
    generatePartition_invalid.2.1 "10.0.0.0/24" 23 1
      (Network.mk .v4 167772160 24 none) rfl (by decide) (Or.inl (by decide))⟩
